import Mathlib

/-!
Verification of the chunked transform-and-deliver pipeline in
`src/scripts/kaggle_to_s3_ingestion.py`.

The embedding models the core pipeline (`process_and_upload_data`), the run
summary accumulator (`Summary`), and the orchestrator boundary (`main`).
External collaborators are abstracted exactly as the code uses them:
- the pandas parse `pd.to_datetime(..., errors='coerce')` of one value is
  abstracted to an `Option PTimestamp` carried by the record (a `none` is a
  NaT, i.e. a parse failure); `dt.tz_localize(None)` keeps the wall-clock
  fields and discards the offset;
- the chunked CSV reader `pd.read_csv(..., chunksize=N)` is a list of chunk
  outcomes: each pull yields either a batch of records or raises (a pandas
  parse error on a structurally malformed row), modelled as `Except`;
- the delivery sink `s3_client.upload_file` is a boolean oracle indexed by
  the number of the upload attempt (`true` = success, `false` = `ClientError`);
- wall-clock instants (`datetime.utcnow()`, parsed timestamps) live on an
  abstract integer timeline; the timestamps that `Summary.add_error` attaches
  to error entries are abstracted away (claims only count entries).
-/

/-- Result of a successful `pd.to_datetime` parse of one
`video_published_at` value: naive wall-clock instant plus the zone offset
the string carried, if any.  `dt.tz_localize(None)` keeps `wall` and
discards `tz` (pandas preserves local wall-clock time when removing the
zone). -/
structure PTimestamp where
  wall : Int
  tz : Option Int
deriving Repr, DecidableEq

/-- One input row.  Only the `video_published_at` column is semantically
interpreted by the pipeline (line 249); `none` models a value on which
`pd.to_datetime(..., errors='coerce')` yields NaT. -/
structure Record where
  video_published_at : Option PTimestamp
deriving Repr, DecidableEq

/-- The row predicate of lines 249-252: keep a row iff its timestamp parsed
and, with any zone offset stripped (`dt.tz_localize(None)`), is `>=` the
cutoff.  A NaT compares `False` against the cutoff in pandas, so a parse
failure excludes the row. -/
def rowKeep (cutoff : Int) (r : Record) : Bool :=
  match r.video_published_at with
  | none => false
  | some t => cutoff ≤ t.wall

/-- Effective configuration (class `Config`).  Field names follow the
source (`S3_BUCKET`, `S3_PREFIX`, `CHUNK_ROWS`, `AWS_REGION`); `S3_PREFIX`
is rendered `s3_prefix_v` here. -/
structure Config where
  S3_BUCKET : String
  s3_prefix_v : String
  CHUNK_ROWS : Nat
  AWS_REGION : String
deriving Repr, DecidableEq

/-- Python `f"{n:04d}"`: decimal digits of `n`, left-padded with zeros to
at least four characters. -/
def pad4 (n : Nat) : String :=
  let s := toString n
  String.mk (List.replicate (4 - s.length) '0') ++ s

/-- The temporary file name of line 263: `part_{part_number:04d}.csv`. -/
def tempFileName (part_number : Nat) : String :=
  "part_" ++ pad4 part_number ++ ".csv"

/-- The delivery key of line 267: `{S3_PREFIX}part_{part_number:04d}.csv`. -/
def s3KeyOf (cfg : Config) (part_number : Nat) : String :=
  cfg.s3_prefix_v ++ tempFileName part_number

/-- The URL recorded on line 270: `s3://{S3_BUCKET}/{s3_key}`. -/
def s3UrlOf (cfg : Config) (part_number : Nat) : String :=
  "s3://" ++ cfg.S3_BUCKET ++ "/" ++ s3KeyOf cfg part_number

/-- The run summary accumulator (class `Summary`).  Error entries keep only
the message; the `datetime.utcnow().isoformat()` timestamp that
`add_error` attaches is abstracted away. -/
structure Summary where
  start_time : Int
  end_time : Option Int
  status : String
  total_rows : Nat
  files_uploaded : List String
  errors : List String
  download_size_mb : Int
deriving Repr, DecidableEq

/-- `Summary.__init__` at instant `t0`. -/
def Summary.init (t0 : Int) : Summary :=
  { start_time := t0, end_time := none, status := "running", total_rows := 0,
    files_uploaded := [], errors := [], download_size_mb := 0 }

/-- `Summary.complete(success)` at instant `t`: set the end time and the
final status. -/
def Summary.complete (s : Summary) (t : Int) (success : Bool) : Summary :=
  { s with end_time := some t, status := if success then ("success") else ("failed") }

/-- `Summary.add_error(error)`: append one error entry. -/
def Summary.add_error (s : Summary) (e : String) : Summary :=
  { s with errors := s.errors ++ [e] }

/-- A minimal JSON value universe for `Summary.to_dict`. -/
inductive JVal where
  | jnull : JVal
  | jstr : String → JVal
  | jnum : Int → JVal
  | jlist : List JVal → JVal
  | jobj : List (String × JVal) → JVal
deriving Repr

/-- `Summary.to_dict` (lines 104-124): the serialized summary document, as
an ordered field list.  The duration is `end_time - start_time` when the
end time is set and `0` otherwise; ISO rendering of instants is abstracted
to the integer timeline. -/
def Summary.to_dict (s : Summary) (cfg : Config) : List (String × JVal) :=
  let duration : Int := match s.end_time with
    | some e => e - s.start_time
    | none => 0
  [ ("status", JVal.jstr s.status),
    ("start_time", JVal.jnum s.start_time),
    ("end_time", match s.end_time with | some e => JVal.jnum e | none => JVal.jnull),
    ("duration_seconds", JVal.jnum duration),
    ("total_rows_processed", JVal.jnum s.total_rows),
    ("files_uploaded", JVal.jnum s.files_uploaded.length),
    ("file_list", JVal.jlist (s.files_uploaded.map JVal.jstr)),
    ("download_size_mb", JVal.jnum s.download_size_mb),
    ("errors", JVal.jlist (s.errors.map JVal.jstr)),
    ("configuration", JVal.jobj
      [ ("s3_bucket", JVal.jstr cfg.S3_BUCKET),
        ("s3_prefix", JVal.jstr cfg.s3_prefix_v),
        ("chunk_size", JVal.jnum cfg.CHUNK_ROWS),
        ("aws_region", JVal.jstr cfg.AWS_REGION) ]) ]

/-- One pull from `pd.read_csv(..., chunksize=N)`: either the next batch of
records, or a raised parse exception (structurally malformed row) whose
message is carried. -/
abbrev ChunkOutcome := Except String (List Record)

/-- The mutable state of one `process_and_upload_data` run: the next
partition number (starts at 1, line 238), the summary being accumulated,
and the ghost trace of delivery attempts `(s3_key, succeeded)` in call
order (the code itself keeps no such list; it records the outcome of each
`upload_file` call implicitly). -/
structure PState where
  part_number : Nat
  summary : Summary
  events : List (String × Bool)
deriving Repr, DecidableEq

/-- Initial orchestrator state for a run whose summary was created at `t0`:
`part_number = 1`, no deliveries yet. -/
def initState (t0 : Int) : PState :=
  { part_number := 1, summary := Summary.init t0, events := [] }

/-- The chunk loop of `process_and_upload_data` (lines 238-291) over a
stream of chunk outcomes.  `sink i` is the result of the `i`-th
`upload_file` call of the run (0-based).  Returns the final state and the
boolean the function returns.  A raised read exception is caught by the
`except` of line 287: one error entry, `False`.  An empty post-filter
chunk is skipped (lines 254-256) without touching any counter.  Otherwise
the filtered size is added to `total_rows` (line 259) before the upload is
attempted; a failed upload appends one error entry and returns `False`
(lines 273-278); a successful upload appends the S3 URL and advances
`part_number` (lines 269-281). -/
def processChunks (cfg : Config) (cutoff : Int) (sink : Nat → Bool) :
    List ChunkOutcome → PState → PState × Bool
  | [], st => (st, true)
  | Except.error e :: _, st =>
      ({ st with summary := st.summary.add_error ("Processing failed: " ++ e) }, false)
  | Except.ok chunk :: rest, st =>
      let filtered := chunk.filter (rowKeep cutoff)
      if filtered.isEmpty then
        processChunks cfg cutoff sink rest st
      else
        let chunk_size := filtered.length
        let st1 : PState :=
          { st with summary := { st.summary with total_rows := st.summary.total_rows + chunk_size } }
        let temp_file := tempFileName st1.part_number
        let s3_key := s3KeyOf cfg st1.part_number
        if sink st1.events.length then
          let st2 : PState :=
            { st1 with
              summary := { st1.summary with
                files_uploaded := st1.summary.files_uploaded ++ [s3UrlOf cfg st1.part_number] },
              events := st1.events ++ [(s3_key, true)],
              part_number := st1.part_number + 1 }
          processChunks cfg cutoff sink rest st2
        else
          ({ st1 with
              summary := st1.summary.add_error ("Upload failed for " ++ temp_file),
              events := st1.events ++ [(s3_key, false)] }, false)

/-- Fuel-indexed chunking of a row list: `xs.take n` then recurse on
`xs.drop n`; the fuel (`xs.length` at the top call) makes the recursion
structural.  With `1 ≤ n` and enough fuel this is exactly the batch
sequence `pd.read_csv(..., chunksize=n)` yields for an in-memory source:
full chunks of `n` rows, a final shorter chunk, no empty chunks. -/
def chunksOfAux (n : Nat) : Nat → List Record → List (List Record)
  | _, [] => []
  | 0, _ :: _ => []
  | fuel + 1, x :: xs => (x :: xs).take n :: chunksOfAux n fuel ((x :: xs).drop n)

/-- The batch sequence the chunked reader produces from `rows` with chunk
size `n`. -/
def chunksOf (n : Nat) (rows : List Record) : List (List Record) :=
  chunksOfAux n rows.length rows

/-- Number of rows of one chunk that survive the filter. -/
def keptLen (cutoff : Int) (c : List Record) : Nat :=
  (c.filter (rowKeep cutoff)).length

/-- Sum of post-filter sizes over a batch sequence. -/
def totalKept (cutoff : Int) (cs : List (List Record)) : Nat :=
  (cs.map (keptLen cutoff)).sum

/-- Number of batches of a sequence whose post-filter result is
non-empty: exactly the partitions a fully successful run delivers. -/
def deliveredCount (cutoff : Int) (cs : List (List Record)) : Nat :=
  (cs.filter (fun c => !(c.filter (rowKeep cutoff)).isEmpty)).length

/-- The execution paths of `main` (lines 304-383), by which point of the
`try` block ends the run: a validation failure (line 315), an S3 access
failure (line 326), the three-stage pipeline (lines 333-347, with the
outcome booleans of the download and extraction stages, the chunk stream
and sink of the processing stage), a `KeyboardInterrupt` (line 369) or an
unexpected exception (line 376) arriving while the summary holds some
accumulated state `s`. -/
inductive MainPath where
  | run (validateOk s3AccessOk downloadOk extractOk : Bool)
      (downloadSize : Int) (chunks : List ChunkOutcome) (sink : Nat → Bool)
  | interrupted (s : Summary)
  | unexpected (s : Summary) (msg : String)

/-- What one `main` invocation leaves behind: the final in-memory summary,
the document written to `ingestion_summary.json` (`none` would mean the
process exited without saving), and the process exit code. -/
structure MainResult where
  summary : Summary
  saved : Option (List (String × JVal))
  exitCode : Nat

/-- Lines 339-347 of `main`: run `process_and_upload_data` on the summary
accumulated so far, finalize with its boolean result, save, and exit 0 on
success / 1 on failure. -/
def pipelinePhase (cfg : Config) (cutoff : Int) (sink : Nat → Bool)
    (chunks : List ChunkOutcome) (sDl : Summary) (t1 : Int) : MainResult :=
  let r := processChunks cfg cutoff sink chunks
    { part_number := 1, summary := sDl, events := [] }
  let s1 := r.1.summary.complete t1 r.2
  { summary := s1, saved := some (s1.to_dict cfg), exitCode := if r.2 then 0 else 1 }

/-- `main` (lines 304-383).  The summary is created at `t0` and every
`complete` call happens at `t1`.  Each failing stage appends the error
entry its own code appends before returning `False` (lines 196-199 for the
download, 227-231 for the extraction); every path finalizes the summary
and saves it before exiting. -/
def mainRun (cfg : Config) (cutoff : Int) (t0 t1 : Int) : MainPath → MainResult
  | MainPath.run vOk sOk dOk eOk dsz chunks sink =>
      let s0 := Summary.init t0
      if vOk = false then
        let s1 := s0.complete t1 false
        { summary := s1, saved := some (s1.to_dict cfg), exitCode := 1 }
      else if sOk = false then
        let s1 := (s0.add_error ("S3 bucket not accessible")).complete t1 false
        { summary := s1, saved := some (s1.to_dict cfg), exitCode := 1 }
      else if dOk = false then
        let s1 := (s0.add_error ("Download failed")).complete t1 false
        { summary := s1, saved := some (s1.to_dict cfg), exitCode := 1 }
      else
        let sDl := { s0 with download_size_mb := dsz }
        if eOk = false then
          let s1 := (sDl.add_error ("Extraction failed")).complete t1 false
          { summary := s1, saved := some (s1.to_dict cfg), exitCode := 1 }
        else
          pipelinePhase cfg cutoff sink chunks sDl t1
  | MainPath.interrupted s =>
      let s1 := (s.add_error ("Pipeline interrupted by user")).complete t1 false
      { summary := s1, saved := some (s1.to_dict cfg), exitCode := 1 }
  | MainPath.unexpected s msg =>
      let s1 := (s.add_error ("Unexpected error: " ++ msg)).complete t1 false
      { summary := s1, saved := some (s1.to_dict cfg), exitCode := 1 }

/-- The default configuration of the source (`bronze-03`, `final-raw/`,
100000-row chunks, `us-east-1`), used for concrete evaluations. -/
def cfgEx : Config :=
  { S3_BUCKET := "bronze-03", s3_prefix_v := "final-raw/",
    CHUNK_ROWS := 100000, AWS_REGION := "us-east-1" }

/-- A record whose timestamp parses to wall-clock instant 10, no zone. -/
def recEx : Record := { video_published_at := some { wall := 10, tz := none } }

/-- A record whose timestamp fails to parse (NaT). -/
def recNone : Record := { video_published_at := none }

/-- The state a run over the single batch `[recEx]` (cutoff 0, summary
created at 0, delivery succeeding) ends in: partition 1 delivered. -/
def stFEx : PState :=
  { part_number := 2,
    summary :=
      { start_time := 0, end_time := none, status := "running",
        total_rows := 1,
        files_uploaded := ["s3://bronze-03/final-raw/part_0001.csv"],
        errors := [], download_size_mb := 0 },
    events := [("final-raw/part_0001.csv", true)] }

theorem chunksOfAux_flatten (n : Nat) (hn : 1 ≤ n) :
    ∀ (fuel : Nat) (xs : List Record), xs.length ≤ fuel →
      (chunksOfAux n fuel xs).flatten = xs := by
  intro fuel
  induction fuel with
  | zero =>
      intro xs hxs
      cases xs with
      | nil => simp [chunksOfAux]
      | cons x l => simp at hxs
  | succ f ih =>
      intro xs hxs
      cases xs with
      | nil => simp [chunksOfAux]
      | cons x l =>
          simp only [chunksOfAux, List.flatten_cons]
          rw [ih ((x :: l).drop n) ?_]
          · exact List.take_append_drop n (x :: l)
          · have hlen : ((x :: l).drop n).length = (x :: l).length - n := by
              simp [List.length_drop]
            omega

/-- Splitting into chunks loses no row and adds none. -/
theorem chunksOf_flatten (n : Nat) (hn : 1 ≤ n) (rows : List Record) :
    (chunksOf n rows).flatten = rows :=
  chunksOfAux_flatten n hn rows.length rows (Nat.le_refl _)

/-- Composition of the chunk loop over a concatenated stream: a run that
returns `False` never looks at later chunks; a run that returns `True`
continues from its final state. -/
theorem processChunks_append (cfg : Config) (cutoff : Int) (sink : Nat → Bool)
    (l₁ : List ChunkOutcome) :
    ∀ (l₂ : List ChunkOutcome) (st : PState),
      processChunks cfg cutoff sink (l₁ ++ l₂) st =
        (match processChunks cfg cutoff sink l₁ st with
          | (st', true) => processChunks cfg cutoff sink l₂ st'
          | (st', false) => (st', false)) := by
  induction l₁ with
  | nil => intro l₂ st; simp [processChunks]
  | cons c l₁ ih =>
      intro l₂ st
      cases c with
      | error e => simp [processChunks]
      | ok chunk =>
          by_cases hc : (chunk.filter (rowKeep cutoff)).isEmpty
          · simp only [List.cons_append, processChunks, hc, if_true]
            exact ih l₂ st
          · simp only [List.cons_append, processChunks, hc, if_false]
            by_cases hs : sink st.events.length
            · simp only [hs, if_true]
              exact ih l₂ _
            · simp [hs]

/-- A run that failed is insensitive to chunks past the failure point: no
further batch is read or delivered. -/
theorem processChunks_failed_append (cfg : Config) (cutoff : Int) (sink : Nat → Bool)
    (l₁ l₂ : List ChunkOutcome) (st st' : PState)
    (h : processChunks cfg cutoff sink l₁ st = (st', false)) :
    processChunks cfg cutoff sink (l₁ ++ l₂) st = (st', false) := by
  rw [processChunks_append, h]

/-- A run that succeeded continues on appended chunks from its final
state. -/
theorem processChunks_ok_append (cfg : Config) (cutoff : Int) (sink : Nat → Bool)
    (l₁ l₂ : List ChunkOutcome) (st st' : PState)
    (h : processChunks cfg cutoff sink l₁ st = (st', true)) :
    processChunks cfg cutoff sink (l₁ ++ l₂) st =
      processChunks cfg cutoff sink l₂ st' := by
  rw [processChunks_append, h]

/-- Error accounting of one chunk-loop run: a `True` return appends no
error entry; a `False` return appends exactly one. -/
theorem processChunks_errors (cfg : Config) (cutoff : Int) (sink : Nat → Bool)
    (l : List ChunkOutcome) :
    ∀ st : PState,
      ((processChunks cfg cutoff sink l st).2 = true →
        (processChunks cfg cutoff sink l st).1.summary.errors = st.summary.errors) ∧
      ((processChunks cfg cutoff sink l st).2 = false →
        ∃ m, (processChunks cfg cutoff sink l st).1.summary.errors =
          st.summary.errors ++ [m]) := by
  induction l with
  | nil => intro st; simp [processChunks]
  | cons c l ih =>
      intro st
      cases c with
      | error e => simp [processChunks, Summary.add_error]
      | ok chunk =>
          by_cases hc : (chunk.filter (rowKeep cutoff)).isEmpty
          · simp only [processChunks, hc, if_true]
            exact ih st
          · simp only [processChunks, hc, if_false]
            by_cases hs : sink st.events.length
            · simp only [hs, if_true]
              exact ih _
            · simp only [hs, if_false]
              simp [Summary.add_error]

theorem range_shift_cons {α : Type _} (f : Nat → α) (p m : Nat) :
    f p :: (List.range m).map (fun i => f (p + 1 + i)) =
      (List.range (m + 1)).map (fun i => f (p + i)) := by
  rw [List.range_succ_eq_map, List.map_cons, List.map_map, Nat.add_zero]
  congr 1
  apply List.map_congr_left
  intro i _
  simp only [Function.comp_apply]
  exact congrArg f (by omega)

/-- Full characterization of the chunk loop on a well-formed batch stream
when every delivery succeeds: it returns `True`, reads every batch, adds
every post-filter size to `total_rows`, delivers the non-empty post-filter
batches under consecutive partition numbers, and touches nothing else. -/
theorem processChunks_allOk (cfg : Config) (cutoff : Int) (sink : Nat → Bool)
    (hsink : ∀ i, sink i = true) (cs : List (List Record)) :
    ∀ st : PState,
      processChunks cfg cutoff sink (cs.map Except.ok) st =
        ({ part_number := st.part_number + deliveredCount cutoff cs,
           summary := { st.summary with
             total_rows := st.summary.total_rows + totalKept cutoff cs,
             files_uploaded := st.summary.files_uploaded ++
               (List.range (deliveredCount cutoff cs)).map
                 (fun i => s3UrlOf cfg (st.part_number + i)) },
           events := st.events ++
             (List.range (deliveredCount cutoff cs)).map
               (fun i => (s3KeyOf cfg (st.part_number + i), true)) }, true) := by
  induction cs with
  | nil =>
      intro st
      obtain ⟨p, ⟨t0, te, stt, tr, fu, er, dl⟩, ev⟩ := st
      simp [processChunks, totalKept, deliveredCount]
  | cons c cs ih =>
      intro st
      by_cases hc : (c.filter (rowKeep cutoff)).isEmpty
      · have hk : keptLen cutoff c = 0 := by
          rw [List.isEmpty_iff] at hc
          simp [keptLen, hc]
        have hd : deliveredCount cutoff (c :: cs) = deliveredCount cutoff cs := by
          simp [deliveredCount, hc]
        have ht : totalKept cutoff (c :: cs) = totalKept cutoff cs := by
          simp [totalKept, hk]
        simp only [List.map_cons, processChunks, hc, if_true]
        rw [ht, hd]
        exact ih st
      · have hd : deliveredCount cutoff (c :: cs) = deliveredCount cutoff cs + 1 := by
          simp [deliveredCount, hc]
        have ht : totalKept cutoff (c :: cs) =
            (c.filter (rowKeep cutoff)).length + totalKept cutoff cs := by
          simp [totalKept, keptLen]
        simp only [List.map_cons, processChunks, hc, Bool.not_eq_true, if_false,
          Bool.false_eq_true, hsink, if_true]
        rw [ih _, hd, ht]
        simp only [Prod.mk.injEq, PState.mk.injEq, Summary.mk.injEq, and_true, true_and]
        refine ⟨by omega, ⟨by omega, ?_⟩, ?_⟩
        · rw [List.append_assoc, List.singleton_append,
            range_shift_cons (fun n => s3UrlOf cfg n)]
        · rw [List.append_assoc, List.singleton_append,
            range_shift_cons (fun n => (s3KeyOf cfg n, true))]

/-- Delivery accounting of one chunk-loop run: the length of
`files_uploaded` tracks the number of `True` results among the delivery
attempts of the ghost event trace. -/
theorem processChunks_files_eq_successes (cfg : Config) (cutoff : Int) (sink : Nat → Bool)
    (l : List ChunkOutcome) :
    ∀ st : PState,
      st.summary.files_uploaded.length = (st.events.filter (·.2)).length →
      (processChunks cfg cutoff sink l st).1.summary.files_uploaded.length =
        ((processChunks cfg cutoff sink l st).1.events.filter (·.2)).length := by
  induction l with
  | nil => intro st h; simpa [processChunks] using h
  | cons c l ih =>
      intro st h
      cases c with
      | error e => simpa [processChunks, Summary.add_error] using h
      | ok chunk =>
          by_cases hc : (chunk.filter (rowKeep cutoff)).isEmpty
          · simp only [processChunks, hc, if_true]
            exact ih st h
          · simp only [processChunks, hc, if_false]
            by_cases hs : sink st.events.length
            · simp only [hs, if_true]
              refine ih _ ?_
              simp [List.filter_append, h]
            · simp only [hs, if_false]
              simpa [List.filter_append, Summary.add_error] using h

theorem filter_snd_true_map {α β : Type _} (g : α → β) (l : List α) :
    ((l.map (fun i => (g i, true))).filter (fun x => x.2)).map (fun x => x.1) =
      l.map g := by
  induction l with
  | nil => rfl
  | cons a l ih => simp [ih]

/-- Shape invariant of the delivered-files list: every appended element is
the full S3 URL of some partition number `n ≥ 1`, and the partition
counter never drops below 1. -/
theorem processChunks_files_shape (cfg : Config) (cutoff : Int) (sink : Nat → Bool)
    (l : List ChunkOutcome) :
    ∀ st : PState, 1 ≤ st.part_number →
      (∀ u ∈ st.summary.files_uploaded, ∃ n, 1 ≤ n ∧ u = s3UrlOf cfg n) →
      1 ≤ (processChunks cfg cutoff sink l st).1.part_number ∧
      ∀ u ∈ (processChunks cfg cutoff sink l st).1.summary.files_uploaded,
        ∃ n, 1 ≤ n ∧ u = s3UrlOf cfg n := by
  induction l with
  | nil => intro st hp hf; exact ⟨hp, hf⟩
  | cons c l ih =>
      intro st hp hf
      cases c with
      | error e =>
          simpa [processChunks, Summary.add_error] using And.intro hp hf
      | ok chunk =>
          by_cases hc : (chunk.filter (rowKeep cutoff)).isEmpty
          · simp only [processChunks, hc, if_true]
            exact ih st hp hf
          · simp only [processChunks, hc, Bool.not_eq_true, if_false, Bool.false_eq_true]
            by_cases hs : sink st.events.length
            · simp only [hs, if_true]
              refine ih _ (by simp) ?_
              intro u hu
              simp only [List.mem_append, List.mem_singleton] at hu
              rcases hu with hu | hu
              · exact hf u hu
              · exact ⟨st.part_number, hp, hu⟩
            · simp only [hs, if_false, Bool.false_eq_true]
              exact ⟨hp, hf⟩

/-- C3: for every record and cutoff, the row filter returns `false` when
the timestamp field failed to parse (the row is excluded, no error is
raised), and when it parsed it returns `true` iff the zone-stripped
wall-clock timestamp is `>=` the cutoff. -/
theorem claim_C3 (cutoff : Int) (r : Record) :
    (r.video_published_at = none → rowKeep cutoff r = false) ∧
    (∀ t : PTimestamp, r.video_published_at = some t →
      (rowKeep cutoff r = true ↔ t.wall ≥ cutoff)) := by
  constructor
  · intro h; simp [rowKeep, h]
  · intro t h; simp [rowKeep, h, ge_iff_le]

theorem claim_C3_witness :
    rowKeep 5 recNone = false ∧
    (rowKeep 5 { video_published_at := some { wall := 7, tz := some 120 } } = true ↔
      (7 : Int) ≥ 5) :=
  ⟨(claim_C3 5 recNone).1 rfl,
   (claim_C3 5 { video_published_at := some { wall := 7, tz := some 120 } }).2
     { wall := 7, tz := some 120 } rfl⟩

/-- C5: a batch whose filtered result is empty produces no partition,
delivers nothing, advances no counter and records no error: the loop
continues on the remaining batches from an unchanged state. -/
theorem claim_C5 (cfg : Config) (cutoff : Int) (sink : Nat → Bool)
    (c : List Record) (rest : List ChunkOutcome) (st : PState)
    (h : c.filter (rowKeep cutoff) = []) :
    processChunks cfg cutoff sink (Except.ok c :: rest) st =
      processChunks cfg cutoff sink rest st := by
  simp [processChunks, h]

theorem claim_C5_witness :
    processChunks cfgEx 5 (fun _ => true) [Except.ok [recNone]] (initState 0) =
      processChunks cfgEx 5 (fun _ => true) [] (initState 0) :=
  claim_C5 cfgEx 5 (fun _ => true) [recNone] [] (initState 0) (by decide)

/-- C6 (amended): on a successful delivery, and only then, the partition's
URL is appended to the delivered list; the filtered row count, however, is
added to the running total when the partition is produced, before the
delivery attempt (line 259), so a partition whose delivery fails
contributes its row count although not its key. -/
theorem claim_C6 (cfg : Config) (cutoff : Int) (sink : Nat → Bool)
    (c : List Record) (rest : List ChunkOutcome) (st : PState)
    (hne : ¬(c.filter (rowKeep cutoff)).isEmpty) :
    (sink st.events.length = true →
      processChunks cfg cutoff sink (Except.ok c :: rest) st =
        processChunks cfg cutoff sink rest
          { part_number := st.part_number + 1,
            summary := { st.summary with
              total_rows := st.summary.total_rows + (c.filter (rowKeep cutoff)).length,
              files_uploaded := st.summary.files_uploaded ++ [s3UrlOf cfg st.part_number] },
            events := st.events ++ [(s3KeyOf cfg st.part_number, true)] }) ∧
    (sink st.events.length = false →
      processChunks cfg cutoff sink (Except.ok c :: rest) st =
        ({ part_number := st.part_number,
           summary := { st.summary with
             total_rows := st.summary.total_rows + (c.filter (rowKeep cutoff)).length,
             errors := st.summary.errors ++
               ["Upload failed for " ++ tempFileName st.part_number] },
           events := st.events ++ [(s3KeyOf cfg st.part_number, false)] }, false)) := by
  constructor <;> intro hs <;>
    simp [processChunks, hne, hs, Summary.add_error]

/-- C6 counterexample: one batch with one kept row, the only delivery
fails.  The claim demands that this partition contribute no row count, so
`total_rows` would be 0; the code has already added 1 on line 259 before
the upload attempt, while (rightly) recording no key. -/
theorem claim_C6_counterexample :
    (processChunks cfgEx 0 (fun _ => false) [Except.ok [recEx]]
        (initState 0)).1.summary.total_rows = 1 ∧
    (processChunks cfgEx 0 (fun _ => false) [Except.ok [recEx]]
        (initState 0)).1.summary.files_uploaded = [] ∧
    (processChunks cfgEx 0 (fun _ => false) [Except.ok [recEx]]
        (initState 0)).2 = false := by
  decide

theorem claim_C6_witness :
    processChunks cfgEx 0 (fun _ => false) [Except.ok [recEx]] (initState 0) =
      ({ part_number := 1,
         summary := { (initState 0).summary with
           total_rows := 1,
           errors := ["Upload failed for " ++ tempFileName 1] },
         events := [(s3KeyOf cfgEx 1, false)] }, false) := by
  have h := (claim_C6 cfgEx 0 (fun _ => false) [recEx] [] (initState 0)
    (by decide)).2 rfl
  rw [h]
  decide

/-- C9: serializing a summary whose end time was never set still yields
the full stable field set, with `end_time` rendered as null and
`duration_seconds` as 0. -/
theorem claim_C9 (s : Summary) (cfg : Config) (h : s.end_time = none) :
    (s.to_dict cfg).map Prod.fst =
      ["status", "start_time", "end_time", "duration_seconds",
       "total_rows_processed", "files_uploaded", "file_list",
       "download_size_mb", "errors", "configuration"] ∧
    (s.to_dict cfg).lookup ("end_time") = some JVal.jnull ∧
    (s.to_dict cfg).lookup ("duration_seconds") = some (JVal.jnum 0) := by
  refine ⟨by simp [Summary.to_dict], ?_, ?_⟩ <;>
    simp [Summary.to_dict, h, List.lookup]

theorem claim_C9_witness :
    ((Summary.init 3).to_dict cfgEx).map Prod.fst =
      ["status", "start_time", "end_time", "duration_seconds",
       "total_rows_processed", "files_uploaded", "file_list",
       "download_size_mb", "errors", "configuration"] ∧
    ((Summary.init 3).to_dict cfgEx).lookup ("end_time") = some JVal.jnull ∧
    ((Summary.init 3).to_dict cfgEx).lookup ("duration_seconds") = some (JVal.jnum 0) :=
  claim_C9 (Summary.init 3) cfgEx rfl

/-- C1: for every chunk size N ≥ 1 and every input, the run in which every
delivery succeeds returns `True` and the accumulated `total_rows_processed`
— the sum of the sizes of all filtered batches it produced — equals the
number of input rows whose timestamp parses and whose zone-stripped
timestamp is ≥ the cutoff. -/
theorem claim_C1 (cfg : Config) (cutoff t0 : Int) (N : Nat) (hN : 1 ≤ N)
    (rows : List Record) :
    (processChunks cfg cutoff (fun _ => true) ((chunksOf N rows).map Except.ok)
        (initState t0)).2 = true ∧
    (processChunks cfg cutoff (fun _ => true) ((chunksOf N rows).map Except.ok)
        (initState t0)).1.summary.total_rows = rows.countP (rowKeep cutoff) := by
  have h1 : totalKept cutoff (chunksOf N rows) =
      ((chunksOf N rows).flatten).countP (rowKeep cutoff) := by
    rw [List.countP_flatten]
    simp only [totalKept, keptLen]
    congr 1
    apply List.map_congr_left
    intro c _
    simp [keptLen, List.countP_eq_length_filter]
  rw [processChunks_allOk cfg cutoff _ (fun _ => rfl) (chunksOf N rows) (initState t0)]
  refine ⟨rfl, ?_⟩
  show (initState t0).summary.total_rows + totalKept cutoff (chunksOf N rows) =
    rows.countP (rowKeep cutoff)
  rw [show (initState t0).summary.total_rows = 0 from rfl, Nat.zero_add, h1,
    chunksOf_flatten N hN rows]

theorem claim_C1_witness :
    (processChunks cfgEx 0 (fun _ => true)
        ((chunksOf 2 [recEx, recNone, recEx]).map Except.ok) (initState 0)).2 = true ∧
    (processChunks cfgEx 0 (fun _ => true)
        ((chunksOf 2 [recEx, recNone, recEx]).map Except.ok)
        (initState 0)).1.summary.total_rows =
      [recEx, recNone, recEx].countP (rowKeep 0) :=
  claim_C1 cfgEx 0 0 2 (by decide) [recEx, recNone, recEx]

/-- C4: with every delivery succeeding, the keys of the delivered
partitions of a run are exactly `{prefix}part_{i:04d}.csv` for the
contiguous 1-based sequence i = 1, …, k in order — starting at 1, no gap,
no number reused — with k ≥ 1 for any input yielding at least one
non-empty filtered batch. -/
theorem claim_C4 (cfg : Config) (cutoff t0 : Int) (N : Nat) (hN : 1 ≤ N)
    (rows : List Record)
    (hne : ∃ c ∈ chunksOf N rows, c.filter (rowKeep cutoff) ≠ []) :
    ∃ k, 1 ≤ k ∧
      ((processChunks cfg cutoff (fun _ => true) ((chunksOf N rows).map Except.ok)
          (initState t0)).1.events.filter (fun x => x.2)).map (fun x => x.1) =
        (List.range k).map (fun i => s3KeyOf cfg (1 + i)) := by
  refine ⟨deliveredCount cutoff (chunksOf N rows), ?_, ?_⟩
  · obtain ⟨c, hcm, hcne⟩ := hne
    have hmem : c ∈ (chunksOf N rows).filter
        (fun c => !(c.filter (rowKeep cutoff)).isEmpty) := by
      rw [List.mem_filter]
      exact ⟨hcm, by simp [List.isEmpty_iff, hcne]⟩
    exact List.length_pos.mpr (List.ne_nil_of_mem hmem)
  · rw [processChunks_allOk cfg cutoff _ (fun _ => rfl)]
    show ((((initState t0).events ++ (List.range _).map _).filter _).map _) = _
    rw [show (initState t0).events = [] from rfl, List.nil_append,
      show (initState t0).part_number = 1 from rfl]
    exact filter_snd_true_map (fun i => s3KeyOf cfg (1 + i)) _

theorem claim_C4_witness :
    ∃ k, 1 ≤ k ∧
      ((processChunks cfgEx 0 (fun _ => true) ((chunksOf 1 [recEx]).map Except.ok)
          (initState 0)).1.events.filter (fun x => x.2)).map (fun x => x.1) =
        (List.range k).map (fun i => s3KeyOf cfgEx (1 + i)) :=
  claim_C4 cfgEx 0 0 1 (by decide) [recEx] ⟨[recEx], by decide, by decide⟩

/-- C2: when a run on a well-formed batch stream returns `False` — which
on such a stream only a delivery failure causes — the orchestrator has
appended exactly one error entry and stopped at once: appending further
chunks to the stream changes nothing (no further batch read or delivered),
finalizing the summary yields status "failed", and every previously
delivered key and accumulated statistic is preserved; the delivered-keys
count equals the number of successful deliver calls of the run. -/
theorem claim_C2 (cfg : Config) (cutoff t0 t1 : Int) (sink : Nat → Bool)
    (cs : List (List Record))
    (hfail : (processChunks cfg cutoff sink (cs.map Except.ok)
      (initState t0)).2 = false) :
    (∀ later : List ChunkOutcome,
      processChunks cfg cutoff sink (cs.map Except.ok ++ later) (initState t0) =
        processChunks cfg cutoff sink (cs.map Except.ok) (initState t0)) ∧
    (processChunks cfg cutoff sink (cs.map Except.ok)
        (initState t0)).1.summary.errors.length = 1 ∧
    ((processChunks cfg cutoff sink (cs.map Except.ok) (initState t0)).1.summary.complete
        t1 (processChunks cfg cutoff sink (cs.map Except.ok) (initState t0)).2).status =
      "failed" ∧
    (processChunks cfg cutoff sink (cs.map Except.ok)
        (initState t0)).1.summary.files_uploaded.length =
      ((processChunks cfg cutoff sink (cs.map Except.ok) (initState t0)).1.events.filter
        (fun x => x.2)).length := by
  have hfiles := processChunks_files_eq_successes cfg cutoff sink (cs.map Except.ok)
    (initState t0) (by simp [initState, Summary.init])
  have herr2 := (processChunks_errors cfg cutoff sink (cs.map Except.ok) (initState t0)).2
  rcases hp : processChunks cfg cutoff sink (cs.map Except.ok) (initState t0) with ⟨stF, ok⟩
  rw [hp] at hfail hfiles herr2
  change ok = false at hfail
  subst hfail
  refine ⟨?_, ?_, by simp [Summary.complete], hfiles⟩
  · intro later
    exact processChunks_failed_append cfg cutoff sink _ later _ _ hp
  · obtain ⟨m, hm⟩ := herr2 rfl
    simp only [initState, Summary.init, List.nil_append] at hm
    simp [hm]

theorem claim_C2_witness :
    processChunks cfgEx 0 (fun _ => false)
        ([[recEx]].map Except.ok ++ [Except.ok [recEx]]) (initState 0) =
      processChunks cfgEx 0 (fun _ => false) ([[recEx]].map Except.ok) (initState 0) ∧
    (processChunks cfgEx 0 (fun _ => false) ([[recEx]].map Except.ok)
        (initState 0)).1.summary.errors.length = 1 :=
  ⟨(claim_C2 cfgEx 0 0 17 (fun _ => false) [[recEx]] (by decide)).1 [Except.ok [recEx]],
   (claim_C2 cfgEx 0 0 17 (fun _ => false) [[recEx]] (by decide)).2.1⟩

/-- C8: after a successfully processed prefix, a structurally malformed
row fails the read: the loop returns `False` no matter what batches
follow (fatal for the run, no row-level skipping), exactly one
`Processing failed` error entry is recorded — the successful prefix had
recorded none — and finalizing with this result yields status "failed". -/
theorem claim_C8 (cfg : Config) (cutoff t0 t1 : Int) (sink : Nat → Bool)
    (cs : List (List Record)) (msg : String) (stF : PState)
    (hpre : processChunks cfg cutoff sink (cs.map Except.ok) (initState t0) =
      (stF, true)) :
    ∀ rest : List ChunkOutcome,
      processChunks cfg cutoff sink (cs.map Except.ok ++ Except.error msg :: rest)
          (initState t0) =
        ({ stF with summary := stF.summary.add_error ("Processing failed: " ++ msg) },
          false) ∧
      stF.summary.errors = [] ∧
      ((stF.summary.add_error ("Processing failed: " ++ msg)).complete t1 false).status =
        "failed" := by
  intro rest
  have herr : stF.summary.errors = [] := by
    have h := (processChunks_errors cfg cutoff sink (cs.map Except.ok) (initState t0)).1
    rw [hpre] at h
    simpa [initState, Summary.init] using h rfl
  refine ⟨?_, herr, by simp [Summary.add_error, Summary.complete]⟩
  rw [processChunks_ok_append cfg cutoff sink _ _ _ _ hpre]
  rfl

theorem claim_C8_witness :
    processChunks cfgEx 0 (fun _ => true)
        ([[recEx]].map Except.ok ++ Except.error ("bad row") :: []) (initState 0) =
      ({ stFEx with
          summary := stFEx.summary.add_error ("Processing failed: " ++ "bad row") },
        false) ∧
      stFEx.summary.errors = [] ∧
      ((stFEx.summary.add_error ("Processing failed: " ++ "bad row")).complete 9
          false).status = "failed" :=
  claim_C8 cfgEx 0 0 9 (fun _ => true) [[recEx]] "bad row" stFEx (by decide) []

/-- C10: after any batch stream processed from the initial state (hence
after every delivery operation of a run), every element of the summary's
delivered-files list is the full bucket-qualified S3 URL
`s3://{bucket}/{prefix}part_{n:04d}.csv` of some partition number n ≥ 1
(the URL of line 270, not the bare delivery key of line 267). -/
theorem claim_C10 (cfg : Config) (cutoff t0 : Int) (sink : Nat → Bool)
    (chunks : List ChunkOutcome) :
    ∀ u ∈ (processChunks cfg cutoff sink chunks
        (initState t0)).1.summary.files_uploaded,
      ∃ n, 1 ≤ n ∧ u = s3UrlOf cfg n :=
  (processChunks_files_shape cfg cutoff sink chunks (initState t0)
    (by simp [initState]) (by simp [initState, Summary.init])).2

theorem claim_C10_witness :
    ∃ n, 1 ≤ n ∧ "s3://bronze-03/final-raw/part_0001.csv" = s3UrlOf cfgEx n :=
  claim_C10 cfgEx 0 0 (fun _ => true) [Except.ok [recEx]]
    "s3://bronze-03/final-raw/part_0001.csv" (by decide)

theorem pipelinePhase_spec (cfg : Config) (cutoff : Int) (sink : Nat → Bool)
    (chunks : List ChunkOutcome) (sDl : Summary) (t1 : Int) :
    (pipelinePhase cfg cutoff sink chunks sDl t1).saved =
      some ((pipelinePhase cfg cutoff sink chunks sDl t1).summary.to_dict cfg) ∧
    (pipelinePhase cfg cutoff sink chunks sDl t1).summary.end_time = some t1 ∧
    ((pipelinePhase cfg cutoff sink chunks sDl t1).summary.status = "success" ∨
      (pipelinePhase cfg cutoff sink chunks sDl t1).summary.status = "failed") ∧
    ((pipelinePhase cfg cutoff sink chunks sDl t1).exitCode = 0 ↔
      (pipelinePhase cfg cutoff sink chunks sDl t1).summary.status = "success") := by
  refine ⟨rfl, rfl, ?_, ?_⟩ <;>
    cases ho : (processChunks cfg cutoff sink chunks
        { part_number := 1, summary := sDl, events := [] }).2 <;>
      simp [pipelinePhase, ho, Summary.complete]

/-- C7: on every execution path of `main` — success, validation or S3
failure, any stage failure, unexpected exception, or interruption — the
summary is finalized (end time set, status success or failed) and the
summary document is serialized before the process exits; the exit code is
0 exactly when the status is "success" (non-zero on every failure path). -/
theorem claim_C7 (cfg : Config) (cutoff t0 t1 : Int) (path : MainPath) :
    (mainRun cfg cutoff t0 t1 path).saved =
      some ((mainRun cfg cutoff t0 t1 path).summary.to_dict cfg) ∧
    (mainRun cfg cutoff t0 t1 path).summary.end_time = some t1 ∧
    ((mainRun cfg cutoff t0 t1 path).summary.status = "success" ∨
      (mainRun cfg cutoff t0 t1 path).summary.status = "failed") ∧
    ((mainRun cfg cutoff t0 t1 path).exitCode = 0 ↔
      (mainRun cfg cutoff t0 t1 path).summary.status = "success") := by
  cases path with
  | interrupted s => exact ⟨rfl, rfl, Or.inr rfl, by simp [mainRun, Summary.complete]⟩
  | unexpected s msg => exact ⟨rfl, rfl, Or.inr rfl, by simp [mainRun, Summary.complete]⟩
  | run vOk sOk dOk eOk dsz chunks sink =>
      cases vOk with
      | false => exact ⟨rfl, rfl, Or.inr rfl, by simp [mainRun, Summary.complete]⟩
      | true =>
          cases sOk with
          | false => exact ⟨rfl, rfl, Or.inr rfl, by simp [mainRun, Summary.complete]⟩
          | true =>
              cases dOk with
              | false => exact ⟨rfl, rfl, Or.inr rfl, by simp [mainRun, Summary.complete]⟩
              | true =>
                  cases eOk with
                  | false => exact ⟨rfl, rfl, Or.inr rfl, by simp [mainRun, Summary.complete]⟩
                  | true =>
                      exact pipelinePhase_spec cfg cutoff sink chunks
                        { Summary.init t0 with download_size_mb := dsz } t1
